import Mathlib

/-!
Shallow embedding of the synchronization / rollover core of the sticky-notes
web application (source under `src/`): the todos rollover pipeline
(`src/hooks/useFirestoreNotes.ts`, `processTodos` and the fallback todos
subscription), the time-box entry merge (`updateTimeBoxEntry`), manual
reordering (`updateTodoOrder`), the z-order focus routine
(`src/utils/domUtils.ts`, `setWindowFocus`), the file-size guard of the
upload handler (`NoteList`, `handleFileChange`), the note list filter
(`filteredNotes`), and the date-key builder
(`src/utils/dateUtils.ts`, `getLocalDateString`).

JavaScript numbers that the code only ever treats as integers (z-indices,
todo `order`, file sizes, years/months/days) are modelled as `Int`/`Nat`.
JavaScript objects used as string-keyed maps are modelled as functions
`String → Option _`.  The effects of the remote store (batch commit, `setDoc`
with merge) are modelled by the pure state transformation they perform on
the relevant document fields.
-/

namespace Sik

/-- Todo document, from `src/types.ts` (`interface Todo`).  The fields
`createdAt` and `position` are never read by the rollover / sort /
reorder code and are omitted. -/
structure Todo where
  id : String
  text : String
  completed : Bool
  fixed : Bool
  lastDate : String
  order : Int
deriving DecidableEq

/-- The sort comparator of `processTodos` (useFirestoreNotes.ts lines
282-287) and, textually duplicated, of the fallback subscription (lines
320-325): completed items after incomplete ones, then ascending `order`.
`a.order || 0` is the identity on every integer-valued `order` (JavaScript
`0 || 0` is `0`), so it is modelled as `a.order`. -/
def todoCompare (a b : Todo) : Int :=
  if a.completed ≠ b.completed then (if a.completed then 1 else -1)
  else a.order - b.order

/-- A stable sort with comparator `c` places `a` no later than `b` exactly
when `c a b ≤ 0`; this is the order relation induced by `todoCompare`. -/
def todoLE (a b : Todo) : Bool :=
  decide (todoCompare a b ≤ 0)

/-- The visibility filter of `processTodos` (line 279) and of the fallback
subscription (line 319): keep only the todos of today, or fixed ones. -/
def visibleTodos (d : String) (ts : List Todo) : List Todo :=
  ts.filter (fun t => t.lastDate == d || t.fixed)

/-- Client-side sort of the visible todos (lines 282-287).  JavaScript
`Array.prototype.sort` is a stable sort; `List.mergeSort` is the stable
sort of the Lean library, applied to the same order relation. -/
def sortTodos (ts : List Todo) : List Todo :=
  ts.mergeSort todoLE

/-- One update scheduled into the rollover batch (lines 266 and 269):
`completed = some false` models the payload `{ completed: false, lastDate:
today }` of the fixed case, `completed = none` models the payload
`{ lastDate: today }` that leaves `completed` untouched. -/
structure RolloverUpdate where
  id : String
  completed : Option Bool
  lastDate : String
deriving DecidableEq

/-- The per-todo body of the `allTodos.forEach` rollover loop (lines
263-273): which update, if any, the loop schedules for one todo. -/
def rolloverUpdate (d : String) (t : Todo) : Option RolloverUpdate :=
  if t.lastDate ≠ d then
    if t.fixed then some ⟨t.id, some false, d⟩
    else if !t.completed then some ⟨t.id, none, d⟩
    else none
  else none

/-- All updates the rollover loop schedules for a snapshot, in snapshot
order. -/
def rolloverUpdates (d : String) (ts : List Todo) : List RolloverUpdate :=
  ts.filterMap (rolloverUpdate d)

/-- Accumulator step of the `forEach` loop: the batch built so far and the
`hasChanges` flag (lines 260-273). -/
def rolloverStep (d : String) (acc : List RolloverUpdate × Bool) (t : Todo) :
    List RolloverUpdate × Bool :=
  if t.lastDate ≠ d then
    if t.fixed then (acc.1 ++ [⟨t.id, some false, d⟩], true)
    else if !t.completed then (acc.1 ++ [⟨t.id, none, d⟩], true)
    else acc
  else acc

/-- Outcome of one `processTodos` cycle: either the rollover batch is
committed (atomically, by `writeBatch.commit`) and nothing is published,
or the sorted visible list is published via `setTodos`. -/
inductive ProcessResult where
  | committed (batch : List RolloverUpdate)
  | published (todos : List Todo)
deriving DecidableEq

/-- `processTodos` (useFirestoreNotes.ts lines 257-294): run the rollover
loop over the snapshot; if any update was scheduled commit the batch and
publish nothing this cycle, otherwise filter and sort and publish. -/
def processTodos (d : String) (ts : List Todo) : ProcessResult :=
  let r := ts.foldl (rolloverStep d) ([], false)
  if r.2 then .committed r.1
  else .published (sortTodos (visibleTodos d ts))

/-- The comparator of the fallback (unordered) todos subscription
(lines 320-325), a textual duplicate of the primary comparator. -/
def fallbackTodoCompare (a b : Todo) : Int :=
  if a.completed ≠ b.completed then (if a.completed then 1 else -1)
  else a.order - b.order

/-- Order relation induced by the fallback comparator. -/
def fallbackTodoLE (a b : Todo) : Bool :=
  decide (fallbackTodoCompare a b ≤ 0)

/-- The fallback todos subscription handler (lines 314-331): it filters to
today-or-fixed and sorts client-side, and always publishes; it performs no
rollover. -/
def fallbackSortedTodos (d : String) (ts : List Todo) : List Todo :=
  (ts.filter (fun t => t.lastDate == d || t.fixed)).mergeSort fallbackTodoLE

/-- The pair of slot entries of one hour of a time-box document, from
`src/types.ts` (`TimeBoxData.entries` values `{ slot1, slot2 }`). -/
structure TBEntry where
  slot1 : String
  slot2 : String
deriving DecidableEq

/-- The slot argument of `updateTimeBoxEntry` (`slot: 1 | 2`). -/
inductive Slot where
  | one
  | two
deriving DecidableEq

/-- The computed-key write `{ ...entry, [`slot${slot}`]: text }` of
`updateTimeBoxEntry` (line 424): overwrite one slot, keep the other. -/
def setSlot : Slot → String → TBEntry → TBEntry
  | .one, text, e => { e with slot1 := text }
  | .two, text, e => { e with slot2 := text }

/-- The slot of an entry that `updateTimeBoxEntry` does not write. -/
def otherSlot : Slot → TBEntry → String
  | .one, e => e.slot2
  | .two, e => e.slot1

/-- `updateTimeBoxEntry` (useFirestoreNotes.ts lines 416-429), as the
transformation it performs on the `entries` field of the time-box
document of the day.  Its `entries` object (`Record<string, {slot1,
slot2}>`) is modelled as `String → Option TBEntry`; a missing document
reads as the empty map (`snap.exists() ? snap.data() : { entries: {} }`).
The read of `data.entries` at `hourKey`, defaulted to blank slots, is the
`getD` default; the spread `{ ...data.entries, [hourKey]: ... }` is the
pointwise override.  The final `setDoc(..., { entries: newEntries },
{ merge: true })` writes `newEntries`, which already contains every key of
the old object, so the written `entries` field is `newEntries` under
both overwrite and recursive-merge semantics. -/
def updateTimeBoxEntry (entries : String → Option TBEntry)
    (hour : Nat) (slot : Slot) (text : String) : String → Option TBEntry :=
  let hourKey := toString hour
  let entry := (entries hourKey).getD ⟨"", ""⟩
  fun k => if k = hourKey then some (setSlot slot text entry) else entries k

/-- `setWindowFocus` (domUtils.ts lines 8-38) on the z-indices of the
rendered floating widgets.  `parseInt` of `win.style.zIndex` (defaulted to 10) reads
the current z-index of each widget, so the pre-state is a list
of integers `zs`; `i` is the position of the focused target among the
widgets.  The routine scans for the maximum z-index (starting from 10),
resets every widget to 10, then sets the target to
`Math.max(maxZIndex + 1, 50)`.  (`List.set` leaves the list unchanged when
`i` is out of range, matching the `if (target)` null-guard: the reset
still happens, the raise does not.) -/
def setWindowFocus (zs : List Int) (i : Nat) : List Int :=
  let maxZ := zs.foldl (fun m z => if z > m then z else m) 10
  (zs.map (fun _ => (10 : Int))).set i (max (maxZ + 1) 50)

/-- The file selected in the upload input, with `File.size` in bytes. -/
structure SelectedFile where
  name : String
  type : String
  size : Nat
deriving DecidableEq

/-- Outcome of the upload change handler: either the alert rejection or
the invocation of the `onAddFile` callback (which is `addFile`). -/
inductive FileChangeResult where
  | rejected (alertMsg : String)
  | accepted (file : SelectedFile)
deriving DecidableEq

/-- `handleFileChange` of `NoteList` (`src/unnamed/part_002` lines 56-67)
for a selected file: files over `750 * 1024` bytes are rejected with an
alert before `onAddFile` is reached. -/
def handleFileChange (file : SelectedFile) : FileChangeResult :=
  if file.size > 750 * 1024 then
    .rejected "File is too large. Please upload files smaller than 750KB."
  else .accepted file

/-- File documents created downstream of the change handler: `addFile`
(useFirestoreNotes.ts lines 527-550) writes exactly one new file document
`{ name, type, dataUrl, size, ... }` when invoked (the `dataUrl` comes
from the external FileReader encoding, abstracted by `encode`), and it is
invoked only from the accepted branch. -/
def fileDocsCreated (encode : SelectedFile → String) :
    FileChangeResult → List (String × String × String × Nat)
  | .rejected _ => []
  | .accepted f => [(f.name, f.type, encode f, f.size)]

/-- One write of the `updateTodoOrder` batch applied to the todos
collection (`String → Option Todo`, document id to document):
`batch.update(todoRef, { order: index })` sets the `order` field of that
document and nothing else. -/
def applyOrderWrite (s : String → Option Todo) (w : String × Int) :
    String → Option Todo :=
  fun id => if id = w.1 then (s id).map (fun t => { t with order := w.2 }) else s id

/-- Sequential application of the writes of the batch (the `forEach` runs
front to back; within one batch a later write to the same document wins). -/
def applyOrderWrites (s : String → Option Todo) :
    List (String × Int) → String → Option Todo
  | [] => s
  | w :: ws => applyOrderWrites (applyOrderWrite s w) ws

/-- The writes staged by `updateTodoOrder` (useFirestoreNotes.ts lines
406-414): for each todo of the reordered list, `order := index`. -/
def orderWrites (L : List Todo) : List (String × Int) :=
  (L.enum).map (fun p => (p.2.id, (p.1 : Int)))

/-- `updateTodoOrder(reorderedTodos)` as the transformation its committed
batch performs on the todos collection. -/
def updateTodoOrder (s : String → Option Todo) (L : List Todo) :
    String → Option Todo :=
  applyOrderWrites s (orderWrites L)

/-- Note lifecycle status, from `src/types.ts`. -/
inductive NoteStatus where
  | active
  | minimized
  | archived
deriving DecidableEq

/-- Note document, from `src/types.ts` (`interface Note`), restricted to
the fields the list-view filter reads. -/
structure Note where
  id : String
  content : String
  color : String
  status : NoteStatus
deriving DecidableEq

/-- The tab state of the `NoteList` component. -/
inductive Tab where
  | recent
  | saved
  | files
deriving DecidableEq

/-- Characters removed by the JavaScript string `trim` method: the
ECMA-262 WhiteSpace production (TAB, VT, FF, SPACE, NBSP, ZWNBSP and the
Unicode Space_Separator category) and the LineTerminator production
(LF, CR, LS, PS). -/
def jsWhitespace (c : Char) : Bool :=
  c = '\t' ∨ c = '\n' ∨ c = '\x0b' ∨ c = '\x0c' ∨ c = '\r' ∨ c = ' ' ∨
  c = '\u00A0' ∨ c = '\u1680' ∨ ('\u2000' ≤ c ∧ c ≤ '\u200A') ∨
  c = '\u2028' ∨ c = '\u2029' ∨ c = '\u202F' ∨ c = '\u205F' ∨
  c = '\u3000' ∨ c = '\uFEFF'

/-- The JavaScript string `trim` method: drop leading and trailing
whitespace. -/
def jsTrim (s : String) : String :=
  ⟨((s.data.dropWhile jsWhitespace).reverse.dropWhile jsWhitespace).reverse⟩

/-- `filteredNotes` of `NoteList` (`src/unnamed/part_002` lines 37-47):
empty notes are filtered out (`!note.content`, i.e. `content = ""`, or
whitespace-only content); the Recent tab shows active and minimized
notes, the Saved tab shows archived notes, the Files tab shows none. -/
def filteredNotes (tab : Tab) (notes : List Note) : List Note :=
  notes.filter (fun note =>
    if note.content = "" ∨ jsTrim note.content = "" then false
    else
      match tab with
      | .recent => note.status = .active ∨ note.status = .minimized
      | .saved => note.status = .archived
      | .files => false)

/-- Decimal digit character, as produced by JavaScript number-to-string
coercion of a digit value. -/
def digitChar (n : Nat) : Char := Char.ofNat (48 + n)

/-- Fuel-driven digit extraction: one unit of fuel per digit; `fuel = n`
is always sufficient since a positive number has no more digits than its
own value. -/
def natDigitsAux : Nat → Nat → List Char
  | 0, _ => []
  | _ + 1, 0 => []
  | fuel + 1, n + 1 =>
      natDigitsAux fuel ((n + 1) / 10) ++ [digitChar ((n + 1) % 10)]

/-- Decimal digit characters of a positive natural number, most
significant first (empty for 0). -/
def natDigits (n : Nat) : List Char := natDigitsAux n n

/-- JavaScript coercion of a non-negative integer to its decimal string
(`String(n)` / template-literal interpolation). -/
def natToDecimal (n : Nat) : String :=
  if n = 0 then "0" else ⟨natDigits n⟩

/-- The JavaScript two-argument padStart call used by the source, with a
zero-digit pad character: left-pad with zero digits up to length 2. -/
def padStart2 (s : String) : String :=
  if s.length ≥ 2 then s
  else ⟨List.replicate (2 - s.length) '0'⟩ ++ s

/-- `getLocalDateString` (dateUtils.ts lines 8-11) as a function of the
components of the current local date: `year = getFullYear()`,
`month0 = getMonth()` (0-based), `day = getDate()` (1-based).  The code
interpolates the unpadded year, then month+1 and day each padded with
`padStart` as above, joined by dashes. -/
def getLocalDateString (year month0 day : Nat) : String :=
  natToDecimal year ++ "-" ++ padStart2 (natToDecimal (month0 + 1)) ++ "-" ++
    padStart2 (natToDecimal day)

/-! ## Supporting lemmas -/

/-- One step of the rollover loop either appends the scheduled update and
raises the flag, or leaves the accumulator alone. -/
lemma rolloverStep_eq (d : String) (acc : List RolloverUpdate × Bool) (t : Todo) :
    rolloverStep d acc t =
      match rolloverUpdate d t with
      | some u => (acc.1 ++ [u], true)
      | none => acc := by
  unfold rolloverStep rolloverUpdate
  split_ifs <;> rfl

/-- The rollover fold accumulates exactly the scheduled updates and the
flag records whether any update was scheduled. -/
lemma foldl_rolloverStep (d : String) (ts : List Todo) :
    ∀ (acc : List RolloverUpdate) (b : Bool),
      ts.foldl (rolloverStep d) (acc, b) =
        (acc ++ rolloverUpdates d ts, b || !(rolloverUpdates d ts).isEmpty) := by
  induction ts with
  | nil => intro acc b; simp [rolloverUpdates]
  | cons t ts ih =>
    intro acc b
    rw [List.foldl_cons, rolloverStep_eq]
    rcases h : rolloverUpdate d t with _ | u
    · simpa [rolloverUpdates, List.filterMap_cons, h] using ih acc b
    · simp only [rolloverUpdates, List.filterMap_cons, h]
      rw [ih]
      simp [rolloverUpdates]

/-- `processTodos` in terms of the scheduled updates. -/
lemma processTodos_eq (d : String) (ts : List Todo) :
    processTodos d ts =
      if rolloverUpdates d ts = [] then
        .published (sortTodos (visibleTodos d ts))
      else .committed (rolloverUpdates d ts) := by
  unfold processTodos
  rw [foldl_rolloverStep d ts [] false]
  rcases h : rolloverUpdates d ts with _ | ⟨u, us⟩ <;> simp [h]

/-! ## Claims -/

/-- C1: for every todo `t` of a snapshot processed with date key `d` such
that `t.lastDate ≠ d`: if `t` is fixed, the rollover schedules an update
setting `completed := false` and `lastDate := d`; otherwise, if `t` is not
completed, it schedules an update setting `lastDate := d` only, leaving
`completed` untouched; otherwise (completed and not fixed) it schedules no
update and `t` is excluded from every visible list computed with key `d`. -/
theorem rollover_case_analysis (d : String) (ts : List Todo) (t : Todo)
    (ht : t ∈ ts) (hd : t.lastDate ≠ d) :
    (t.fixed = true → RolloverUpdate.mk t.id (some false) d ∈ rolloverUpdates d ts) ∧
    (t.fixed = false → t.completed = false →
      RolloverUpdate.mk t.id none d ∈ rolloverUpdates d ts) ∧
    (t.fixed = false → t.completed = true →
      rolloverUpdate d t = none ∧ ∀ us : List Todo, t ∉ visibleTodos d us) := by
  refine ⟨fun hfix => ?_, fun hfix hcomp => ?_, fun hfix hcomp => ⟨?_, ?_⟩⟩
  · exact List.mem_filterMap.mpr ⟨t, ht, by simp [rolloverUpdate, hd, hfix]⟩
  · exact List.mem_filterMap.mpr ⟨t, ht, by simp [rolloverUpdate, hd, hfix, hcomp]⟩
  · simp [rolloverUpdate, hd, hfix, hcomp]
  · intro us hmem
    have h := (List.mem_filter.mp hmem).2
    simp only [hfix, Bool.or_false, beq_iff_eq] at h
    exact hd h

/-- C1 witness: a fixed, completed, stale todo is scheduled a reset; a
stale unfinished one-off is carried forward; a stale completed one-off is
scheduled nothing and is invisible. -/
theorem rollover_case_analysis_witness :
    ((Todo.mk "a" "x" true true "2024-01-01" 0).fixed = true →
      RolloverUpdate.mk "a" (some false) "2024-01-02" ∈
        rolloverUpdates "2024-01-02" [Todo.mk "a" "x" true true "2024-01-01" 0]) ∧
    ((Todo.mk "a" "x" true true "2024-01-01" 0).fixed = false →
      (Todo.mk "a" "x" true true "2024-01-01" 0).completed = false →
      RolloverUpdate.mk "a" none "2024-01-02" ∈
        rolloverUpdates "2024-01-02" [Todo.mk "a" "x" true true "2024-01-01" 0]) ∧
    ((Todo.mk "a" "x" true true "2024-01-01" 0).fixed = false →
      (Todo.mk "a" "x" true true "2024-01-01" 0).completed = true →
      rolloverUpdate "2024-01-02" (Todo.mk "a" "x" true true "2024-01-01" 0) = none ∧
      ∀ us : List Todo,
        Todo.mk "a" "x" true true "2024-01-01" 0 ∉ visibleTodos "2024-01-02" us) :=
  rollover_case_analysis "2024-01-02" [Todo.mk "a" "x" true true "2024-01-01" 0]
    (Todo.mk "a" "x" true true "2024-01-01" 0) (by simp) (by decide)

/-- C2: whenever the rollover pass schedules at least one update, all the
scheduled updates are committed as the one batch and no visible list is
published that cycle; the sorted visible list is computed and published
exactly when no update was needed. -/
theorem processTodos_phases (d : String) (ts : List Todo) :
    (rolloverUpdates d ts ≠ [] →
      processTodos d ts = .committed (rolloverUpdates d ts)) ∧
    (rolloverUpdates d ts = [] →
      processTodos d ts = .published (sortTodos (visibleTodos d ts))) ∧
    (∀ l, processTodos d ts = .published l → rolloverUpdates d ts = []) := by
  refine ⟨fun h => ?_, fun h => ?_, fun l h => ?_⟩
  · rw [processTodos_eq]; simp [h]
  · rw [processTodos_eq]; simp [h]
  · by_contra hne
    rw [processTodos_eq, if_neg hne] at h
    exact ProcessResult.noConfusion h

/-- C2 witness: a snapshot with one stale fixed todo commits its batch; a
snapshot with one up-to-date todo publishes the sorted visible list. -/
theorem processTodos_phases_witness :
    processTodos "2024-01-02" [Todo.mk "a" "x" true true "2024-01-01" 0] =
      .committed (rolloverUpdates "2024-01-02"
        [Todo.mk "a" "x" true true "2024-01-01" 0]) ∧
    processTodos "2024-01-02" [Todo.mk "b" "y" false false "2024-01-02" 1] =
      .published (sortTodos (visibleTodos "2024-01-02"
        [Todo.mk "b" "y" false false "2024-01-02" 1])) :=
  ⟨(processTodos_phases "2024-01-02" [Todo.mk "a" "x" true true "2024-01-01" 0]).1
      (by decide),
   (processTodos_phases "2024-01-02" [Todo.mk "b" "y" false false "2024-01-02" 1]).2.1
      (by decide)⟩

/-- The comparator order relation is transitive. -/
lemma todoLE_trans (a b c : Todo) : todoLE a b → todoLE b c → todoLE a c := by
  simp only [todoLE, todoCompare, decide_eq_true_eq]
  cases ha : a.completed <;> cases hb : b.completed <;> cases hc : c.completed <;>
    simp [ha, hb, hc] <;> omega

/-- The comparator order relation is total. -/
lemma todoLE_total (a b : Todo) : todoLE a b || todoLE b a := by
  simp only [todoLE, todoCompare, Bool.or_eq_true, decide_eq_true_eq]
  cases ha : a.completed <;> cases hb : b.completed <;> simp [ha, hb] <;> omega

/-- What one comparator step guarantees about an adjacent pair: no
completed item precedes an incomplete one, and within one completion
group `order` is ascending. -/
lemma todoLE_imp {a b : Todo} (h : todoLE a b = true) :
    (a.completed = true → b.completed = true) ∧
    (a.completed = b.completed → a.order ≤ b.order) := by
  simp only [todoLE, todoCompare, decide_eq_true_eq] at h
  cases ha : a.completed <;> cases hb : b.completed <;>
    simp [ha, hb] at h ⊢ <;> omega

/-- Specification of every list the todos pipeline publishes. -/
def publishedListSpec (d : String) (ts : List Todo) (l : List Todo) : Prop :=
  (∀ t : Todo, t ∈ l ↔ (t ∈ ts ∧ (t.lastDate = d ∨ t.fixed = true))) ∧
  l.Pairwise (fun a b =>
    (a.completed = true → b.completed = true) ∧
    (a.completed = b.completed → a.order ≤ b.order))

/-- The sorted visible list satisfies the published-list specification. -/
lemma sortTodos_visibleTodos_spec (d : String) (ts : List Todo) :
    publishedListSpec d ts (sortTodos (visibleTodos d ts)) := by
  constructor
  · intro t
    simp [sortTodos, visibleTodos, List.mem_mergeSort, List.mem_filter]
  · exact (List.sorted_mergeSort todoLE_trans todoLE_total
      (visibleTodos d ts)).imp (fun h => todoLE_imp h)

/-- C3: every published visible todo list — the list `processTodos`
publishes and the list the fallback subscription publishes — contains
exactly the snapshot todos whose `lastDate` equals the date key or whose
`fixed` flag is set, no completed item precedes an incomplete one, and
within each completion group `order` is ascending. -/
theorem published_visible_sorted (d : String) (ts : List Todo) :
    (∀ l, processTodos d ts = .published l → publishedListSpec d ts l) ∧
    publishedListSpec d ts (fallbackSortedTodos d ts) := by
  constructor
  · intro l hl
    rw [processTodos_eq] at hl
    by_cases h : rolloverUpdates d ts = []
    · rw [if_pos h] at hl
      cases hl
      exact sortTodos_visibleTodos_spec d ts
    · rw [if_neg h] at hl
      exact absurd hl (by simp)
  · have : fallbackSortedTodos d ts = sortTodos (visibleTodos d ts) := rfl
    rw [this]
    exact sortTodos_visibleTodos_spec d ts

/-- C3 witness: a two-element snapshot (one completed, one incomplete,
both current) published by `processTodos`. -/
theorem published_visible_sorted_witness :
    publishedListSpec "2024-01-02"
      [Todo.mk "a" "x" true false "2024-01-02" 0,
       Todo.mk "b" "y" false false "2024-01-02" 1]
      (sortTodos (visibleTodos "2024-01-02"
        [Todo.mk "a" "x" true false "2024-01-02" 0,
         Todo.mk "b" "y" false false "2024-01-02" 1])) :=
  (published_visible_sorted "2024-01-02"
      [Todo.mk "a" "x" true false "2024-01-02" 0,
       Todo.mk "b" "y" false false "2024-01-02" 1]).1
    (sortTodos (visibleTodos "2024-01-02"
      [Todo.mk "a" "x" true false "2024-01-02" 0,
       Todo.mk "b" "y" false false "2024-01-02" 1]))
    (by
      rw [processTodos_eq,
        if_pos (show rolloverUpdates "2024-01-02"
          [Todo.mk "a" "x" true false "2024-01-02" 0,
           Todo.mk "b" "y" false false "2024-01-02" 1] = [] from by decide)])

/-- C4 counterexample: on a snapshot holding one stale fixed completed
todo, the primary path commits a rollover batch and publishes nothing,
while the fallback path performs no rollover and publishes the stale todo
unchanged — the two paths are distinguishable. -/
theorem fallback_counterexample :
    processTodos "2024-01-02" [Todo.mk "a" "x" true true "2024-01-01" 0] =
      .committed [RolloverUpdate.mk "a" (some false) "2024-01-02"] ∧
    fallbackSortedTodos "2024-01-02" [Todo.mk "a" "x" true true "2024-01-01" 0] =
      [Todo.mk "a" "x" true true "2024-01-01" 0] ∧
    processTodos "2024-01-02" [Todo.mk "a" "x" true true "2024-01-01" 0] ≠
      .published (fallbackSortedTodos "2024-01-02"
        [Todo.mk "a" "x" true true "2024-01-01" 0]) := by
  have h1 : processTodos "2024-01-02" [Todo.mk "a" "x" true true "2024-01-01" 0] =
      .committed [RolloverUpdate.mk "a" (some false) "2024-01-02"] := by
    rw [processTodos_eq, if_neg (by decide)]
    decide
  have h2 : fallbackSortedTodos "2024-01-02" [Todo.mk "a" "x" true true "2024-01-01" 0] =
      [Todo.mk "a" "x" true true "2024-01-01" 0] := by
    simp [fallbackSortedTodos]
  exact ⟨h1, h2, by rw [h1]; exact fun h => ProcessResult.noConfusion h⟩

/-- C4 amended: on every snapshot for which the rollover pass schedules no
update, the primary path publishes exactly the list the fallback path
publishes — same elements, same order; equivalence fails only on
snapshots that need a rollover, where the primary path commits instead of
publishing. -/
theorem fallback_equiv_no_rollover (d : String) (ts : List Todo)
    (h : rolloverUpdates d ts = []) :
    processTodos d ts = .published (fallbackSortedTodos d ts) := by
  rw [processTodos_eq, if_pos h]
  rfl

/-- C4 witness: a snapshot with one up-to-date todo. -/
theorem fallback_equiv_no_rollover_witness :
    processTodos "2024-01-02" [Todo.mk "b" "y" false false "2024-01-02" 1] =
      .published (fallbackSortedTodos "2024-01-02"
        [Todo.mk "b" "y" false false "2024-01-02" 1]) :=
  fallback_equiv_no_rollover "2024-01-02"
    [Todo.mk "b" "y" false false "2024-01-02" 1] (by decide)

/-- C5: `updateTimeBoxEntry hour slot text` changes only the `slot` entry
of `hour` in the written `entries` map: every other hour keeps exactly
its previous entry, and the other slot of `hour` keeps its previous text;
the written slot holds `text`. -/
theorem updateTimeBoxEntry_frame (entries : String → Option TBEntry)
    (hour : Nat) (slot : Slot) (text : String) :
    (∀ k, k ≠ toString hour →
      updateTimeBoxEntry entries hour slot text k = entries k) ∧
    (∀ e, entries (toString hour) = some e →
      updateTimeBoxEntry entries hour slot text (toString hour) =
        some (setSlot slot text e) ∧
      otherSlot slot (setSlot slot text e) = otherSlot slot e) := by
  refine ⟨fun k hk => ?_, fun e he => ⟨?_, ?_⟩⟩
  · simp [updateTimeBoxEntry, hk]
  · simp [updateTimeBoxEntry, he]
  · cases slot <;> rfl

/-- C5 witness: with hours 7 and 8 populated, writing slot two of hour 7
leaves hour 8 untouched and keeps slot one of hour 7. -/
theorem updateTimeBoxEntry_frame_witness :
    ("8" : String) ≠ toString 7 ∧
    (fun k => if k = "7" then some (TBEntry.mk "a" "b")
              else if k = "8" then some (TBEntry.mk "c" "d") else none) (toString 7) =
      some (TBEntry.mk "a" "b") ∧
    updateTimeBoxEntry
        (fun k => if k = "7" then some (TBEntry.mk "a" "b")
                  else if k = "8" then some (TBEntry.mk "c" "d") else none)
        7 .two "z" "8" =
      (fun k => if k = "7" then some (TBEntry.mk "a" "b")
                else if k = "8" then some (TBEntry.mk "c" "d") else none) "8" ∧
    updateTimeBoxEntry
        (fun k => if k = "7" then some (TBEntry.mk "a" "b")
                  else if k = "8" then some (TBEntry.mk "c" "d") else none)
        7 .two "z" (toString 7) =
      some (setSlot .two "z" (TBEntry.mk "a" "b")) ∧
    otherSlot .two (setSlot .two "z" (TBEntry.mk "a" "b")) =
      otherSlot .two (TBEntry.mk "a" "b") := by
  refine ⟨by decide, by decide, ?_, ?_, ?_⟩
  · exact (updateTimeBoxEntry_frame
      (fun k => if k = "7" then some (TBEntry.mk "a" "b")
                else if k = "8" then some (TBEntry.mk "c" "d") else none)
      7 .two "z").1 "8" (by decide)
  · exact ((updateTimeBoxEntry_frame
      (fun k => if k = "7" then some (TBEntry.mk "a" "b")
                else if k = "8" then some (TBEntry.mk "c" "d") else none)
      7 .two "z").2 (TBEntry.mk "a" "b") (by decide)).1
  · exact ((updateTimeBoxEntry_frame
      (fun k => if k = "7" then some (TBEntry.mk "a" "b")
                else if k = "8" then some (TBEntry.mk "c" "d") else none)
      7 .two "z").2 (TBEntry.mk "a" "b") (by decide)).2

/-- C6 counterexample: with three rendered widgets all at z-index 10,
focusing the first raises it to 50 but resets the other two widgets to the
same z-index 10, so two widgets are left at the same z-order — refuting
the distinctness part of the claim. -/
theorem setWindowFocus_counterexample :
    setWindowFocus [10, 10, 10] 0 = [50, 10, 10] ∧
    ¬ (setWindowFocus [10, 10, 10] 0).Pairwise (fun a b => a ≠ b) := by
  decide

/-- C6 amended: after focusing widget `i`, every other rendered widget is
reset to the baseline z-index 10, the focused widget is at least 50, and
so the focused widget is strictly above every other widget (in particular
no other widget shares the focused z-index); widgets other than the
focused one all share the baseline. -/
theorem setWindowFocus_topmost (zs : List Int) (i : Nat) (hi : i < zs.length) :
    (∀ j, j < zs.length → j ≠ i → (setWindowFocus zs i).getD j 0 = 10) ∧
    50 ≤ (setWindowFocus zs i).getD i 0 ∧
    (∀ j, j < zs.length → j ≠ i →
      (setWindowFocus zs i).getD j 0 < (setWindowFocus zs i).getD i 0) := by
  have hj10 : ∀ j, j < zs.length → j ≠ i → (setWindowFocus zs i).getD j 0 = 10 := by
    intro j hj hne
    simp only [setWindowFocus]
    rw [List.getD_eq_getElem?_getD, List.getElem?_set_ne (Ne.symm hne),
      List.getElem?_map, List.getElem?_eq_getElem hj]
    rfl
  have hi50 : 50 ≤ (setWindowFocus zs i).getD i 0 := by
    simp only [setWindowFocus]
    rw [List.getD_eq_getElem?_getD, List.getElem?_set_self (by simpa using hi)]
    simp
  exact ⟨hj10, hi50, fun j hj hne => by
    have h1 := hj10 j hj hne
    omega⟩

/-- C6 witness: three widgets at z-indices 10, 30, 20; focusing the
second. -/
theorem setWindowFocus_topmost_witness :
    (∀ j, j < ([10, 30, 20] : List Int).length → j ≠ 1 →
      (setWindowFocus [10, 30, 20] 1).getD j 0 = 10) ∧
    50 ≤ (setWindowFocus [10, 30, 20] 1).getD 1 0 ∧
    (∀ j, j < ([10, 30, 20] : List Int).length → j ≠ 1 →
      (setWindowFocus [10, 30, 20] 1).getD j 0 <
        (setWindowFocus [10, 30, 20] 1).getD 1 0) :=
  setWindowFocus_topmost [10, 30, 20] 1 (by decide)

/-- C7: every selected file larger than 750KB (`750 * 1024` bytes) is
rejected at the UI boundary with the alert, `onAddFile` (`addFile`) is
never invoked, and no file document is created, whatever the encoding the
FileReader would have produced. -/
theorem oversized_file_rejected (f : SelectedFile) (h : f.size > 750 * 1024) :
    handleFileChange f =
      .rejected "File is too large. Please upload files smaller than 750KB." ∧
    (∀ g : SelectedFile, handleFileChange f ≠ .accepted g) ∧
    (∀ encode : SelectedFile → String,
      fileDocsCreated encode (handleFileChange f) = []) := by
  have hr : handleFileChange f =
      .rejected "File is too large. Please upload files smaller than 750KB." := by
    simp [handleFileChange, h]
  exact ⟨hr, fun g hg => by rw [hr] at hg; exact FileChangeResult.noConfusion hg,
    fun encode => by rw [hr]; rfl⟩

/-- C7 witness: a file one byte over the ceiling. -/
theorem oversized_file_rejected_witness :
    handleFileChange (SelectedFile.mk "big.png" "image/png" 768001) =
      .rejected "File is too large. Please upload files smaller than 750KB." ∧
    (∀ g : SelectedFile,
      handleFileChange (SelectedFile.mk "big.png" "image/png" 768001) ≠ .accepted g) ∧
    (∀ encode : SelectedFile → String,
      fileDocsCreated encode
        (handleFileChange (SelectedFile.mk "big.png" "image/png" 768001)) = []) :=
  oversized_file_rejected (SelectedFile.mk "big.png" "image/png" 768001) (by decide)

/-- The keys written by the reorder batch are exactly the todo ids, in
list order. -/
lemma orderWrites_keys (L : List Todo) (n : Nat) :
    ((L.enumFrom n).map (fun p => (p.2.id, (p.1 : Int)))).map Prod.fst =
      L.map Todo.id := by
  rw [List.map_map]
  have h : (Prod.fst ∘ fun p : Nat × Todo => (p.2.id, (p.1 : Int))) =
      (Todo.id ∘ Prod.snd) := rfl
  rw [h, ← List.map_map, List.enumFrom_map_snd]

/-- A document whose id is not among the write keys is untouched by the
batch. -/
lemma applyOrderWrites_not_mem (ws : List (String × Int)) :
    ∀ (s : String → Option Todo) (id : String), id ∉ ws.map Prod.fst →
      applyOrderWrites s ws id = s id := by
  induction ws with
  | nil => intro s id _; rfl
  | cons w ws ih =>
    intro s id h
    simp only [List.map_cons, List.mem_cons] at h
    push_neg at h
    rw [show applyOrderWrites s (w :: ws) =
      applyOrderWrites (applyOrderWrite s w) ws from rfl]
    rw [ih _ _ h.2]
    simp [applyOrderWrite, h.1]

/-- Effect of the reorder batch on the document of the `i`-th todo, for
an arbitrary starting index of the `forEach` counter: its `order` becomes
the counter value, nothing else changes. -/
lemma applyOrderWrites_enumFrom (L : List Todo) :
    ∀ (n : Nat) (s : String → Option Todo) (i : Nat) (hi : i < L.length),
      (L.map Todo.id).Nodup →
      applyOrderWrites s ((L.enumFrom n).map (fun p => (p.2.id, (p.1 : Int))))
          ((L.get ⟨i, hi⟩).id) =
        (s ((L.get ⟨i, hi⟩).id)).map
          (fun t => { t with order := ((n + i : Nat) : Int) }) := by
  induction L with
  | nil => intro n s i hi; exact absurd hi (by simp)
  | cons t rest ih =>
    intro n s i hi hnd
    simp only [List.nodup_cons, List.map_cons, List.mem_map] at hnd
    rw [List.enumFrom_cons, List.map_cons]
    rw [show applyOrderWrites s
        (((n, t).2.id, ((n, t).1 : Int)) ::
          ((rest.enumFrom (n + 1)).map (fun p => (p.2.id, (p.1 : Int))))) =
      applyOrderWrites (applyOrderWrite s ((n, t).2.id, ((n, t).1 : Int)))
        ((rest.enumFrom (n + 1)).map (fun p => (p.2.id, (p.1 : Int)))) from rfl]
    cases i with
    | zero =>
      have hnotin : t.id ∉ rest.map Todo.id := by
        intro hmem
        obtain ⟨u, hu, he⟩ := List.mem_map.mp hmem
        exact hnd.1 ⟨u, hu, he⟩
      rw [applyOrderWrites_not_mem _ _ _
        (by rw [orderWrites_keys]; simpa using hnotin)]
      simp [applyOrderWrite]
    | succ j =>
      have hj : j < rest.length := by
        simpa [Nat.succ_lt_succ_iff] using hi
      have hget : (t :: rest).get ⟨j + 1, hi⟩ = rest.get ⟨j, hj⟩ := rfl
      rw [hget]
      have hid : (rest.get ⟨j, hj⟩).id ≠ t.id := fun he =>
        hnd.1 ⟨rest.get ⟨j, hj⟩, rest.get_mem j hj, he⟩
      rw [ih (n + 1) _ j hj hnd.2]
      rw [show applyOrderWrite s ((n, t).2.id, ((n, t).1 : Int))
            ((rest.get ⟨j, hj⟩).id) = s ((rest.get ⟨j, hj⟩).id) from
        if_neg (show ¬((rest.get ⟨j, hj⟩).id =
          ((n, t).2.id, ((n, t).1 : Int)).1) from hid)]
      have harith : ((n + 1 + j : Nat) : Int) = ((n + (j + 1) : Nat) : Int) := by
        congr 1
        omega
      rw [harith]

/-- C8: committing the reorder batch twice leaves the todos collection in
the same state as committing it once, and one commit sets the `order` of
the `i`-th todo of the reordered list to `i`, changing nothing else of
that document. -/
theorem updateTodoOrder_idem (s : String → Option Todo) (L : List Todo)
    (hnd : (L.map Todo.id).Nodup) :
    updateTodoOrder (updateTodoOrder s L) L = updateTodoOrder s L ∧
    ∀ i (hi : i < L.length),
      updateTodoOrder s L ((L.get ⟨i, hi⟩).id) =
        (s ((L.get ⟨i, hi⟩).id)).map (fun t => { t with order := (i : Int) }) := by
  have hkeys : (orderWrites L).map Prod.fst = L.map Todo.id :=
    orderWrites_keys L 0
  have hidx : ∀ (s' : String → Option Todo) i (hi : i < L.length),
      updateTodoOrder s' L ((L.get ⟨i, hi⟩).id) =
        (s' ((L.get ⟨i, hi⟩).id)).map (fun t => { t with order := (i : Int) }) := by
    intro s' i hi
    have h := applyOrderWrites_enumFrom L 0 s' i hi hnd
    simpa [updateTodoOrder, orderWrites, List.enum] using h
  refine ⟨funext fun id => ?_, hidx s⟩
  by_cases hmem : id ∈ L.map Todo.id
  · obtain ⟨t, ht, rfl⟩ := List.mem_map.mp hmem
    obtain ⟨⟨i, hi⟩, rfl⟩ := List.mem_iff_get.mp ht
    rw [hidx (updateTodoOrder s L) i hi, hidx s i hi]
    rcases s ((L.get ⟨i, hi⟩).id) with _ | u
    · rfl
    · rfl
  · show applyOrderWrites (updateTodoOrder s L) (orderWrites L) id =
      updateTodoOrder s L id
    rw [applyOrderWrites_not_mem _ _ _ (by rw [hkeys]; exact hmem)]

/-- C8 witness: a two-document collection reordered by a two-element
list. -/
theorem updateTodoOrder_idem_witness :
    updateTodoOrder
        (updateTodoOrder
          (fun id => if id = "a" then some (Todo.mk "a" "x" false false "2024-01-02" 5)
                     else if id = "b" then some (Todo.mk "b" "y" false false "2024-01-02" 3)
                     else none)
          [Todo.mk "b" "y" false false "2024-01-02" 3,
           Todo.mk "a" "x" false false "2024-01-02" 5])
        [Todo.mk "b" "y" false false "2024-01-02" 3,
         Todo.mk "a" "x" false false "2024-01-02" 5] =
      updateTodoOrder
        (fun id => if id = "a" then some (Todo.mk "a" "x" false false "2024-01-02" 5)
                   else if id = "b" then some (Todo.mk "b" "y" false false "2024-01-02" 3)
                   else none)
        [Todo.mk "b" "y" false false "2024-01-02" 3,
         Todo.mk "a" "x" false false "2024-01-02" 5] ∧
    ∀ i (hi : i < ([Todo.mk "b" "y" false false "2024-01-02" 3,
        Todo.mk "a" "x" false false "2024-01-02" 5] : List Todo).length),
      updateTodoOrder
          (fun id => if id = "a" then some (Todo.mk "a" "x" false false "2024-01-02" 5)
                     else if id = "b" then some (Todo.mk "b" "y" false false "2024-01-02" 3)
                     else none)
          [Todo.mk "b" "y" false false "2024-01-02" 3,
           Todo.mk "a" "x" false false "2024-01-02" 5]
          ((([Todo.mk "b" "y" false false "2024-01-02" 3,
              Todo.mk "a" "x" false false "2024-01-02" 5] : List Todo).get ⟨i, hi⟩).id) =
        ((fun id => if id = "a" then some (Todo.mk "a" "x" false false "2024-01-02" 5)
                    else if id = "b" then some (Todo.mk "b" "y" false false "2024-01-02" 3)
                    else none)
            ((([Todo.mk "b" "y" false false "2024-01-02" 3,
                Todo.mk "a" "x" false false "2024-01-02" 5] : List Todo).get ⟨i, hi⟩).id)).map
          (fun t => { t with order := (i : Int) }) :=
  updateTodoOrder_idem
    (fun id => if id = "a" then some (Todo.mk "a" "x" false false "2024-01-02" 5)
               else if id = "b" then some (Todo.mk "b" "y" false false "2024-01-02" 3)
               else none)
    [Todo.mk "b" "y" false false "2024-01-02" 3,
     Todo.mk "a" "x" false false "2024-01-02" 5]
    (by decide)

/-- C9 counterexample: a minimized note with empty content is dropped by
the empty-note filter of the list view and appears under no tab, so it is
not retrievable; likewise an archived note with whitespace-only content,
also when the whitespace is a Unicode space (NBSP followed by an
ideographic space) that only the JavaScript `trim` removes. -/
theorem empty_note_not_retrievable :
    (Note.mk "n1" "" "bg-amber-200" .minimized).status = .minimized ∧
    Note.mk "n1" "" "bg-amber-200" .minimized ∈
      [Note.mk "n1" "" "bg-amber-200" .minimized] ∧
    Note.mk "n1" "" "bg-amber-200" .minimized ∉
      filteredNotes .recent [Note.mk "n1" "" "bg-amber-200" .minimized] ∧
    Note.mk "n1" "" "bg-amber-200" .minimized ∉
      filteredNotes .saved [Note.mk "n1" "" "bg-amber-200" .minimized] ∧
    Note.mk "n1" "" "bg-amber-200" .minimized ∉
      filteredNotes .files [Note.mk "n1" "" "bg-amber-200" .minimized] ∧
    (Note.mk "n2" " " "bg-sky-200" .archived).status = .archived ∧
    Note.mk "n2" " " "bg-sky-200" .archived ∉
      filteredNotes .saved [Note.mk "n2" " " "bg-sky-200" .archived] ∧
    (Note.mk "n3" "\u00A0\u3000" "bg-rose-200" .archived).status = .archived ∧
    Note.mk "n3" "\u00A0\u3000" "bg-rose-200" .archived ∉
      filteredNotes .saved [Note.mk "n3" "\u00A0\u3000" "bg-rose-200" .archived] ∧
    Note.mk "n3" "\u00A0\u3000" "bg-rose-200" .archived ∉
      filteredNotes .recent [Note.mk "n3" "\u00A0\u3000" "bg-rose-200" .archived] := by
  refine ⟨rfl, by simp, ?_, ?_, ?_, rfl, ?_, rfl, ?_, ?_⟩ <;> decide

/-- C9 amended: every minimized or archived note whose content is
non-blank (non-empty after trimming) is retrievable via the list view:
minimized under the Recent tab, archived under the Saved tab. -/
theorem nonblank_notes_retrievable (notes : List Note) (n : Note)
    (hmem : n ∈ notes) (hc : ¬(n.content = "" ∨ jsTrim n.content = "")) :
    (n.status = .minimized → n ∈ filteredNotes .recent notes) ∧
    (n.status = .archived → n ∈ filteredNotes .saved notes) := by
  constructor
  · intro hst
    refine List.mem_filter.mpr ⟨hmem, ?_⟩
    simp [hc, hst]
  · intro hst
    refine List.mem_filter.mpr ⟨hmem, ?_⟩
    simp [hc, hst]

/-- C9 witness: a minimized note and an archived note, both with real
content, found under their tabs. -/
theorem nonblank_notes_retrievable_witness :
    (Note.mk "n1" "buy milk" "bg-amber-200" .minimized ∈
      [Note.mk "n1" "buy milk" "bg-amber-200" .minimized,
       Note.mk "n2" "call bob" "bg-sky-200" .archived]) ∧
    ((Note.mk "n1" "buy milk" "bg-amber-200" .minimized).status = .minimized →
      Note.mk "n1" "buy milk" "bg-amber-200" .minimized ∈
        filteredNotes .recent
          [Note.mk "n1" "buy milk" "bg-amber-200" .minimized,
           Note.mk "n2" "call bob" "bg-sky-200" .archived]) ∧
    ((Note.mk "n2" "call bob" "bg-sky-200" .archived).status = .archived →
      Note.mk "n2" "call bob" "bg-sky-200" .archived ∈
        filteredNotes .saved
          [Note.mk "n1" "buy milk" "bg-amber-200" .minimized,
           Note.mk "n2" "call bob" "bg-sky-200" .archived]) :=
  ⟨by simp,
   (nonblank_notes_retrievable
      [Note.mk "n1" "buy milk" "bg-amber-200" .minimized,
       Note.mk "n2" "call bob" "bg-sky-200" .archived]
      (Note.mk "n1" "buy milk" "bg-amber-200" .minimized)
      (by simp) (by decide)).1,
   (nonblank_notes_retrievable
      [Note.mk "n1" "buy milk" "bg-amber-200" .minimized,
       Note.mk "n2" "call bob" "bg-sky-200" .archived]
      (Note.mk "n2" "call bob" "bg-sky-200" .archived)
      (by simp) (by decide)).2⟩

/-- The digit extraction is independent of the fuel, as long as the fuel
covers the value. -/
lemma natDigitsAux_stable (fuel : Nat) : ∀ n fuel2, n ≤ fuel → n ≤ fuel2 →
    natDigitsAux fuel n = natDigitsAux fuel2 n := by
  induction fuel with
  | zero =>
    intro n fuel2 h1 _
    have hn : n = 0 := by omega
    subst hn
    cases fuel2 <;> rfl
  | succ f ih =>
    intro n fuel2 h1 h2
    cases n with
    | zero => cases fuel2 <;> rfl
    | succ k =>
      cases fuel2 with
      | zero => omega
      | succ f2 =>
        show natDigitsAux f ((k + 1) / 10) ++ [digitChar ((k + 1) % 10)] =
          natDigitsAux f2 ((k + 1) / 10) ++ [digitChar ((k + 1) % 10)]
        rw [ih ((k + 1) / 10) f2 (by omega) (by omega)]

/-- Unfolding equation of `natDigits` for positive values. -/
lemma natDigits_eq (n : Nat) (h : n ≠ 0) :
    natDigits n = natDigits (n / 10) ++ [digitChar (n % 10)] := by
  rcases n with _ | k
  · exact absurd rfl h
  · show natDigitsAux k ((k + 1) / 10) ++ [digitChar ((k + 1) % 10)] =
      natDigitsAux ((k + 1) / 10) ((k + 1) / 10) ++ [digitChar ((k + 1) % 10)]
    rw [natDigitsAux_stable k ((k + 1) / 10) ((k + 1) / 10) (by omega) (Nat.le_refl _)]

/-- A one-digit value yields one character. -/
lemma natDigits_length_one (n : Nat) (h1 : n ≠ 0) (h2 : n < 10) :
    (natDigits n).length = 1 := by
  rw [natDigits_eq n h1, Nat.div_eq_of_lt h2]
  rfl

/-- A four-digit year yields four characters. -/
lemma natDigits_length_four (y : Nat) (h1 : 1000 ≤ y) (h2 : y ≤ 9999) :
    (natDigits y).length = 4 := by
  rw [natDigits_eq y (by omega), natDigits_eq (y / 10) (by omega),
    natDigits_eq (y / 10 / 10) (by omega)]
  simp [List.length_append,
    natDigits_length_one (y / 10 / 10 / 10) (by omega) (by omega)]

/-- Digit characters are injective on digit values. -/
lemma digitChar_inj : ∀ a, a < 10 → ∀ b, b < 10 → digitChar a = digitChar b → a = b := by
  decide

/-- The digit-string map is injective. -/
lemma natDigits_inj : ∀ a b : Nat, natDigits a = natDigits b → a = b := by
  intro a
  induction a using Nat.strong_induction_on with
  | _ a ih =>
    intro b h
    rcases Nat.eq_zero_or_pos a with ha | ha
    · subst ha
      rcases Nat.eq_zero_or_pos b with hb | hb
      · omega
      · exfalso
        rw [natDigits_eq b (by omega)] at h
        have hlen := congrArg List.length h
        simp [natDigits, natDigitsAux, List.length_append] at hlen
    · rcases Nat.eq_zero_or_pos b with hb | hb
      · subst hb
        exfalso
        rw [natDigits_eq a (by omega)] at h
        have hlen := congrArg List.length h
        simp [natDigits, natDigitsAux, List.length_append] at hlen
      · rw [natDigits_eq a (by omega), natDigits_eq b (by omega)] at h
        obtain ⟨h1, h2⟩ := List.append_inj' h rfl
        have hm : a % 10 = b % 10 :=
          digitChar_inj _ (Nat.mod_lt _ (by omega)) _ (Nat.mod_lt _ (by omega))
            (by simpa using h2)
        have hq : a / 10 = b / 10 :=
          ih (a / 10) (Nat.div_lt_self ha (by omega)) (b / 10) h1
        omega

/-- Data length and string length agree. -/
lemma data_length (s : String) : s.data.length = s.length := rfl

/-- A four-digit year prints as four characters. -/
lemma natToDecimal_length_four (y : Nat) (h1 : 1000 ≤ y) (h2 : y ≤ 9999) :
    (natToDecimal y).length = 4 := by
  rw [natToDecimal, if_neg (by omega : ¬y = 0)]
  simpa [String.length] using natDigits_length_four y h1 h2

/-- Decimal printing is injective on positive values. -/
lemma natToDecimal_inj (a b : Nat) (ha : a ≠ 0) (hb : b ≠ 0) :
    natToDecimal a = natToDecimal b → a = b := by
  rw [natToDecimal, natToDecimal, if_neg ha, if_neg hb]
  intro h
  exact natDigits_inj a b (congrArg String.data h)

/-- Padded month strings have two characters. -/
lemma monthStr_length : ∀ m0, m0 < 12 →
    (padStart2 (natToDecimal (m0 + 1))).length = 2 := by decide

/-- Padded day strings have two characters. -/
lemma dayStr_length : ∀ d, d < 32 → 1 ≤ d →
    (padStart2 (natToDecimal d)).length = 2 := by decide

/-- Padded month strings are injective over month indices. -/
lemma monthStr_inj : ∀ a, a < 12 → ∀ b, b < 12 →
    padStart2 (natToDecimal (a + 1)) = padStart2 (natToDecimal (b + 1)) → a = b := by
  decide

/-- Padded day strings are injective over day numbers. -/
lemma dayStr_inj : ∀ a, a < 32 → ∀ b, b < 32 →
    padStart2 (natToDecimal a) = padStart2 (natToDecimal b) → a = b := by
  decide

/-- Two canonical date keys over in-range components are equal only when
the components are equal. -/
lemma getLocalDateString_inj (y m0 d y2 m2 d2 : Nat)
    (hy1 : 1000 ≤ y) (hy2 : y ≤ 9999) (hm : m0 ≤ 11) (hd1 : 1 ≤ d) (hd2 : d ≤ 31)
    (hy1b : 1000 ≤ y2) (hy2b : y2 ≤ 9999) (hmb : m2 ≤ 11) (hd1b : 1 ≤ d2)
    (hd2b : d2 ≤ 31)
    (h : getLocalDateString y2 m2 d2 = getLocalDateString y m0 d) :
    y2 = y ∧ m2 = m0 ∧ d2 = d := by
  have hdata := congrArg String.data h
  simp only [getLocalDateString, String.data_append] at hdata
  simp only [List.append_assoc, List.singleton_append] at hdata
  have hYlen : (natToDecimal y2).data.length = (natToDecimal y).data.length := by
    rw [data_length, data_length, natToDecimal_length_four y2 hy1b hy2b,
      natToDecimal_length_four y hy1 hy2]
  obtain ⟨hY, hrest⟩ := List.append_inj hdata hYlen
  injection hrest with _ hrest2
  have hMlen : (padStart2 (natToDecimal (m2 + 1))).data.length =
      (padStart2 (natToDecimal (m0 + 1))).data.length := by
    rw [data_length, data_length, monthStr_length m2 (by omega),
      monthStr_length m0 (by omega)]
  obtain ⟨hM, hrest3⟩ := List.append_inj hrest2 hMlen
  injection hrest3 with _ hD
  exact ⟨natToDecimal_inj y2 y (by omega) (by omega) (String.ext hY),
    monthStr_inj m2 (by omega) m0 (by omega) (String.ext hM),
    dayStr_inj d2 (by omega) d (by omega) (String.ext hD)⟩

/-- C10 counterexample: the year is interpolated unpadded, so for a
three-digit year the result has nine characters, not ten — the
"always a 10-character string" part fails outside four-digit years. -/
theorem getLocalDateString_counterexample :
    getLocalDateString 999 0 2 = "999-01-02" ∧
    (getLocalDateString 999 0 2).length = 9 ∧
    (getLocalDateString 999 0 2).length ≠ 10 := by
  decide

/-- C10 amended: for every local date with a four-digit year (month index
0-11, day 1-31), the date key has exactly ten characters in the shape
year-month-day with the month and day zero-padded to two digits; the key
is a canonical, deterministic function of the calendar date, so two keys
over in-range dates are equal exactly when the dates are equal — hence
the rollover test `lastDate ≠ today` and the time-box document key are
exact comparisons of canonical date keys. -/
theorem getLocalDateString_canonical (y m0 d : Nat)
    (hy1 : 1000 ≤ y) (hy2 : y ≤ 9999) (hm : m0 ≤ 11) (hd1 : 1 ≤ d) (hd2 : d ≤ 31) :
    (getLocalDateString y m0 d).length = 10 ∧
    (natToDecimal y).length = 4 ∧
    (padStart2 (natToDecimal (m0 + 1))).length = 2 ∧
    (padStart2 (natToDecimal d)).length = 2 ∧
    (∀ y2 m2 d2, 1000 ≤ y2 → y2 ≤ 9999 → m2 ≤ 11 → 1 ≤ d2 → d2 ≤ 31 →
      (getLocalDateString y2 m2 d2 = getLocalDateString y m0 d ↔
        (y2 = y ∧ m2 = m0 ∧ d2 = d))) := by
  have hY := natToDecimal_length_four y hy1 hy2
  have hM := monthStr_length m0 (by omega)
  have hD := dayStr_length d (by omega) hd1
  refine ⟨?_, hY, hM, hD, ?_⟩
  · have hdash : ("-" : String).length = 1 := rfl
    simp only [getLocalDateString, String.length_append, hY, hM, hD, hdash]
  · intro y2 m2 d2 a b c e f
    constructor
    · exact getLocalDateString_inj y m0 d y2 m2 d2 hy1 hy2 hm hd1 hd2 a b c e f
    · rintro ⟨rfl, rfl, rfl⟩
      rfl

/-- C10 witness: the date 2024-01-02. -/
theorem getLocalDateString_canonical_witness :
    (getLocalDateString 2024 0 2).length = 10 ∧
    (natToDecimal 2024).length = 4 ∧
    (padStart2 (natToDecimal (0 + 1))).length = 2 ∧
    (padStart2 (natToDecimal 2)).length = 2 ∧
    (∀ y2 m2 d2, 1000 ≤ y2 → y2 ≤ 9999 → m2 ≤ 11 → 1 ≤ d2 → d2 ≤ 31 →
      (getLocalDateString y2 m2 d2 = getLocalDateString 2024 0 2 ↔
        (y2 = 2024 ∧ m2 = 0 ∧ d2 = 2))) :=
  getLocalDateString_canonical 2024 0 2 (by decide) (by decide) (by decide)
    (by decide) (by decide)

end Sik
